import Mathlib

/-!
Shallow embedding of crates/revm-jit-context/src/lib.rs: the calling-convention
bridge between JIT-compiled EVM bytecode and the revm interpreter.

Modelling conventions:
* machine integers are Nat (with Int for the signed gas refund counter);
* byte buffers are List Nat, each element intended below 256;
* the 256-bit EvmWord is its list of 32 native-order bytes;
* target endianness is an explicit Endian parameter mirroring the
  cfg target_endian conditional compilation in the source;
* panics (assert and debug_assert) are modelled as Except.error;
* raw pointers that may be null are an explicit Ptr type;
* mutation through pointers and references is explicit state passing: a
  compiled function receives the argument record and returns the status code
  together with the final values of every location it can write through the
  pointers it was given.
-/

namespace RevmcCtx

/-- Little-endian base-256 digits of a natural number, k bytes (head is the
least significant byte). This is the memory representation of the ruint U256
type on a little-endian target. -/
def natToLeBytes : Nat → Nat → List Nat
  | 0, _ => []
  | k + 1, n => n % 256 :: natToLeBytes k (n / 256)

/-- Numeric value of a little-endian byte list (head is the least significant
byte). -/
def leVal : List Nat → Nat
  | [] => 0
  | b :: bs => b + 256 * leVal bs

theorem length_natToLeBytes (k n : Nat) : (natToLeBytes k n).length = k := by
  induction k generalizing n with
  | zero => rfl
  | succ k ih => simp [natToLeBytes, ih]

theorem leVal_natToLeBytes (k n : Nat) (h : n < 2 ^ (8 * k)) :
    leVal (natToLeBytes k n) = n := by
  induction k generalizing n with
  | zero =>
    have : n = 0 := by simpa using h
    simp [this, natToLeBytes, leVal]
  | succ k ih =>
    have hmul : n < 2 ^ (8 * k) * 256 := by
      have he : 8 * (k + 1) = 8 * k + 8 := by ring
      rw [he, pow_add] at h
      simpa using h
    have hd : n / 256 < 2 ^ (8 * k) :=
      (Nat.div_lt_iff_lt_mul (by norm_num)).mpr hmul
    simp [natToLeBytes, leVal, ih _ hd, Nat.mod_add_div]

theorem natToLeBytes_leVal (l : List Nat) (h : ∀ b ∈ l, b < 256) :
    natToLeBytes l.length (leVal l) = l := by
  induction l with
  | nil => rfl
  | cons x xs ih =>
    have hx : x < 256 := h x (List.mem_cons_self x xs)
    have hxs : ∀ b ∈ xs, b < 256 := fun b hb => h b (List.mem_cons_of_mem x hb)
    have h1 : (x + 256 * leVal xs) % 256 = x := by
      rw [Nat.add_mul_mod_self_left]
      exact Nat.mod_eq_of_lt hx
    have h2 : (x + 256 * leVal xs) / 256 = leVal xs := by
      rw [Nat.add_mul_div_left _ _ (by norm_num : 0 < 256)]
      simp [Nat.div_eq_of_lt hx]
    simp [leVal, natToLeBytes, h1, h2, ih hxs]

/-- Target endianness, mirroring the cfg target_endian attribute under which
the source selects between the two bodies of each conversion. -/
inductive Endian where
  | little
  | big
deriving DecidableEq, Repr

/-- EvmWord: a native-endian 256-bit unsigned integer held as 32 raw bytes
(repr C, align 32 in the source). The field is the byte array in native
order. -/
structure EvmWord where
  bytes : List Nat
deriving DecidableEq, Repr

/-- Well-formedness of the model: a real EvmWord has exactly 32 bytes, each
below 256. -/
def EvmWord.wf (w : EvmWord) : Prop :=
  w.bytes.length = 32 ∧ ∀ b ∈ w.bytes, b < 256

instance (w : EvmWord) : Decidable w.wf :=
  inferInstanceAs (Decidable (w.bytes.length = 32 ∧ ∀ b ∈ w.bytes, b < 256))

/-- EvmWord.ZERO: the all-zero word. -/
def EvmWord.ZERO : EvmWord := ⟨List.replicate 32 0⟩

/-- EvmWord.swap_bytes: reverses the byte order of the integer. -/
def EvmWord.swap_bytes (self : EvmWord) : EvmWord := ⟨self.bytes.reverse⟩

/-- EvmWord.from_be: converts an integer from big endian to the target
endianness (swap on little-endian targets, identity on big-endian ones). -/
def EvmWord.from_be (e : Endian) (x : EvmWord) : EvmWord :=
  match e with
  | .little => x.swap_bytes
  | .big => x

/-- EvmWord.from_le: converts an integer from little endian to the target
endianness. -/
def EvmWord.from_le (e : Endian) (x : EvmWord) : EvmWord :=
  match e with
  | .little => x
  | .big => x.swap_bytes

/-- EvmWord.from_ne_bytes: wraps native-endian bytes unchanged. -/
def EvmWord.from_ne_bytes (x : List Nat) : EvmWord := ⟨x⟩

/-- EvmWord.from_be_bytes: creates a value from big-endian bytes. -/
def EvmWord.from_be_bytes (e : Endian) (x : List Nat) : EvmWord :=
  EvmWord.from_be e ⟨x⟩

/-- EvmWord.from_le_bytes: creates a value from little-endian bytes. -/
def EvmWord.from_le_bytes (e : Endian) (x : List Nat) : EvmWord :=
  EvmWord.from_le e ⟨x⟩

/-- EvmWord.to_be: converts self to big endian from the target endianness. -/
def EvmWord.to_be (e : Endian) (self : EvmWord) : EvmWord :=
  match e with
  | .little => self.swap_bytes
  | .big => self

/-- EvmWord.to_le: converts self to little endian from the target
endianness. -/
def EvmWord.to_le (e : Endian) (self : EvmWord) : EvmWord :=
  match e with
  | .little => self
  | .big => self.swap_bytes

/-- EvmWord.to_ne_bytes: the memory representation in native byte order. -/
def EvmWord.to_ne_bytes (self : EvmWord) : List Nat := self.bytes

/-- EvmWord.to_be_bytes: the memory representation in big-endian byte
order. -/
def EvmWord.to_be_bytes (e : Endian) (self : EvmWord) : List Nat :=
  (self.to_be e).to_ne_bytes

/-- EvmWord.to_le_bytes: the memory representation in little-endian byte
order. -/
def EvmWord.to_le_bytes (e : Endian) (self : EvmWord) : List Nat :=
  (self.to_le e).to_ne_bytes

/-- EvmWord.from_u256. On a little-endian target this is a transmute from
U256, whose memory representation there is the 32 little-endian bytes of the
value; on a big-endian target the source materializes value.to_be_bytes(). -/
def EvmWord.from_u256 (e : Endian) (value : Nat) : EvmWord :=
  match e with
  | .little => ⟨natToLeBytes 32 value⟩
  | .big => ⟨(natToLeBytes 32 value).reverse⟩

/-- EvmWord.to_u256. On a little-endian target this is a copy of the shared
representation (little-endian byte interpretation); on a big-endian target
the source calls U256.from_be_bytes on the raw bytes. -/
def EvmWord.to_u256 (e : Endian) (self : EvmWord) : Nat :=
  match e with
  | .little => leVal self.bytes
  | .big => leVal self.bytes.reverse

/-- EvmWord.into_u256: same result as to_u256 (transmute on little-endian
targets, U256.from_be_bytes on big-endian ones). -/
def EvmWord.into_u256 (e : Endian) (self : EvmWord) : Nat :=
  match e with
  | .little => leVal self.bytes
  | .big => leVal self.bytes.reverse

/-- Modelled from the external revm-primitives dependency: Address.from_word
keeps the trailing 20 bytes of a 32-byte word. -/
def addressFromWord (word : List Nat) : List Nat := word.drop 12

/-- EvmWord.to_address: Address.from_word applied to the big-endian byte
form. -/
def EvmWord.to_address (e : Endian) (self : EvmWord) : List Nat :=
  addressFromWord (self.to_be_bytes e)

/-- Modelled from the external ruint dependency: TryFrom of U256 for a W-bit
unsigned integer type succeeds exactly when the value fits in W bits. The
source maps the error to the unit payload, modelled here by Option. -/
def uintTryFromU256 (W : Nat) (value : Nat) : Option Nat :=
  if value < 2 ^ W then some value else none

/-- The From impl generated by impl_conversions_through_u256: lifts an
unsigned integer through U256.from into a word. -/
def EvmWord.from_uint (e : Endian) (value : Nat) : EvmWord :=
  EvmWord.from_u256 e value

/-- The TryFrom impl generated by impl_conversions_through_u256: narrows a
word through to_u256 and the ruint TryFrom into a W-bit unsigned integer. -/
def EvmWord.try_into_uint (e : Endian) (W : Nat) (self : EvmWord) : Option Nat :=
  uintTryFromU256 W (self.to_u256 e)

theorem EvmWord.mk_bytes (w : EvmWord) : EvmWord.mk w.bytes = w := rfl

theorem to_u256_from_u256 (e : Endian) (v : Nat) (h : v < 2 ^ 256) :
    EvmWord.to_u256 e (EvmWord.from_u256 e v) = v := by
  have h32 : v < 2 ^ (8 * 32) := by simpa using h
  cases e with
  | little => simpa [EvmWord.from_u256, EvmWord.to_u256] using leVal_natToLeBytes 32 v h32
  | big =>
    simp [EvmWord.from_u256, EvmWord.to_u256, List.reverse_reverse,
      leVal_natToLeBytes 32 v h32]

theorem from_u256_to_u256 (e : Endian) (w : EvmWord) (h : w.wf) :
    EvmWord.from_u256 e (EvmWord.to_u256 e w) = w := by
  obtain ⟨hlen, hb⟩ := h
  cases e with
  | little =>
    have hrt := natToLeBytes_leVal w.bytes hb
    rw [hlen] at hrt
    simp [EvmWord.from_u256, EvmWord.to_u256, hrt]
  | big =>
    have hb2 : ∀ b ∈ w.bytes.reverse, b < 256 := fun b hbm => hb b (List.mem_reverse.mp hbm)
    have hrt := natToLeBytes_leVal w.bytes.reverse hb2
    rw [List.length_reverse, hlen] at hrt
    simp [EvmWord.from_u256, EvmWord.to_u256, hrt, List.reverse_reverse]

theorem to_be_bytes_from_be_bytes (e : Endian) (b : List Nat) :
    EvmWord.to_be_bytes e (EvmWord.from_be_bytes e b) = b := by
  cases e <;>
    simp [EvmWord.to_be_bytes, EvmWord.from_be_bytes, EvmWord.to_be,
      EvmWord.from_be, EvmWord.swap_bytes, EvmWord.to_ne_bytes]

/-- Boolean success test for an Except value (panic model helper). -/
def isOkB {ε α : Type} : Except ε α → Bool
  | .ok _ => true
  | .error _ => false

/-- EvmStack: the JIT EVM context stack. The source holds 1024 possibly
uninitialized words; the model records the words of the viewed region (the
first CAPACITY slots of the backing storage). -/
structure EvmStack where
  words : List EvmWord
deriving DecidableEq, Repr

/-- EvmStack.CAPACITY: the size of the stack in U256 elements. -/
def EvmStack.CAPACITY : Nat := 1024

/-- EvmStack.SIZE: the size of the stack in bytes. -/
def EvmStack.SIZE : Nat := 32 * EvmStack.CAPACITY

/-- EvmStack.from_ptr: reinterprets a buffer as a stack with no validation;
the caller guarantees at least SIZE readable bytes. The model views the
first CAPACITY slots of the given buffer. -/
def EvmStack.from_ptr (buffer : List EvmWord) : EvmStack :=
  ⟨buffer.take EvmStack.CAPACITY⟩

/-- EvmStack.from_mut_ptr: mutable variant of from_ptr, equally without
validation. -/
def EvmStack.from_mut_ptr (buffer : List EvmWord) : EvmStack :=
  ⟨buffer.take EvmStack.CAPACITY⟩

/-- EvmStack.from_slice: asserts that the slice length is at least CAPACITY,
then reinterprets the slice storage. Except.error models the assert panic. -/
def EvmStack.from_slice (slice : List EvmWord) : Except Unit EvmStack :=
  if EvmStack.CAPACITY ≤ slice.length then .ok (EvmStack.from_ptr slice) else .error ()

/-- EvmStack.from_mut_slice: mutable variant of from_slice with the same
assert. -/
def EvmStack.from_mut_slice (slice : List EvmWord) : Except Unit EvmStack :=
  if EvmStack.CAPACITY ≤ slice.length then .ok (EvmStack.from_mut_ptr slice) else .error ()

/-- EvmStack.from_vec: asserts that the vector capacity is at least CAPACITY,
then reinterprets the vector buffer. The model buffer is the full allocated
region, so its length is the capacity. -/
def EvmStack.from_vec (buffer : List EvmWord) : Except Unit EvmStack :=
  if EvmStack.CAPACITY ≤ buffer.length then .ok (EvmStack.from_ptr buffer) else .error ()

/-- EvmStack.from_mut_vec: mutable variant of from_vec with the same
assert. -/
def EvmStack.from_mut_vec (buffer : List EvmWord) : Except Unit EvmStack :=
  if EvmStack.CAPACITY ≤ buffer.length then .ok (EvmStack.from_mut_ptr buffer) else .error ()

/-- EvmStack.as_slice: the stack as an array of CAPACITY words. -/
def EvmStack.as_slice (self : EvmStack) : List EvmWord := self.words

/-- Gas, from the external revm-interpreter dependency: limit, remaining and
the signed refund counter. Plain value type with copy semantics. -/
structure Gas where
  limit : Nat
  remaining : Nat
  refunded : Int
deriving DecidableEq, Repr

/-- InstructionResult, from the external revm-interpreter dependency: the
status-code vocabulary shared between compiled code and the interpreter.
The variants not listed individually are collapsed into Other. -/
inductive InstructionResult where
  | Continue
  | Stop
  | Return
  | Revert
  | SelfDestruct
  | OutOfGas
  | Other (code : Nat)
deriving DecidableEq, Repr

/-- InterpreterResult, from the external revm-interpreter dependency: a
status code, an output byte buffer and the final gas state. -/
structure InterpreterResult where
  result : InstructionResult
  output : List Nat
  gas : Gas
deriving DecidableEq, Repr

/-- InterpreterAction, from the external revm-interpreter dependency. Call
and Create payloads are opaque to this layer and collapsed to a Nat; None is
the empty action and the Default value. -/
inductive InterpreterAction where
  | Call (inputs : Nat)
  | Create (inputs : Nat)
  | Return (result : InterpreterResult)
  | None
deriving DecidableEq, Repr

/-- InterpreterAction.is_some: every action other than None. -/
def InterpreterAction.is_some (self : InterpreterAction) : Bool :=
  match self with
  | .None => false
  | _ => true

/-- Contract, from the external revm-interpreter dependency: the bytecode
(needed for the instruction pointer) plus the remaining fields collapsed
into an opaque value. -/
structure Contract where
  bytecode : List Nat
  rest : Nat
deriving DecidableEq, Repr

/-- Stack, from the external revm-interpreter dependency: a vector of words.
The model keeps the full allocated buffer (so its length is the capacity)
and the logical length separately. -/
structure Stack where
  buf : List EvmWord
  len : Nat
deriving DecidableEq, Repr

/-- EvmStack.from_interpreter_stack: reinterprets the interpreter stack
buffer as an EvmStack together with a length cell, checking the capacity
invariant only under debug assertions (the source uses debug_assert and
otherwise assumes the stack is large enough). The length cell address is
computed in the source by a raw pointer cast; the model exposes the stack
length value abstractly. -/
def EvmStack.from_interpreter_stack (debugAssertions : Bool) (stack : Stack) :
    Except Unit (EvmStack × Nat) :=
  if debugAssertions ∧ stack.buf.length < EvmStack.CAPACITY then .error ()
  else .ok (EvmStack.from_mut_ptr stack.buf, stack.len)

/-- Interpreter, from the external revm-interpreter dependency, restricted to
the fields this layer reads and writes. The instruction pointer is modelled
as the suffix of the bytecode starting at the pointed-to position. -/
structure Interpreter where
  instruction_pointer : List Nat
  contract : Contract
  instruction_result : InstructionResult
  gas : Gas
  shared_memory : List Nat
  stack : Stack
  return_data_buffer : List Nat
  is_static : Bool
  next_action : InterpreterAction
deriving DecidableEq, Repr

/-- A closed sample universe of concrete host implementations, modelling the
runtime type identity (TypeId) used by the Any machinery. -/
inductive HostTy where
  | A
  | B
  | C
deriving DecidableEq, Repr

/-- Concrete state type of each host implementation. -/
def HostTy.carrier : HostTy → Type
  | .A => Nat
  | .B => List Nat
  | .C => Bool

/-- A dyn HostExt trait object: a runtime type tag, the concrete state, and
the environment reachable through the Host env_mut accessor (the environment
is modelled as an opaque Nat). -/
structure DynHost where
  ty : HostTy
  val : ty.carrier
  env : Nat

/-- Host.env_mut, from the external revm-interpreter dependency: mutable
access to the environment owned by the host. -/
def DynHost.env_mut (self : DynHost) : Nat := self.env

/-- HostExt.as_any_mut: the blanket impl returns self. -/
def DynHost.as_any_mut (self : DynHost) : DynHost := self

/-- Modelled from the Rust core Any machinery: downcast_mut compares the
runtime type tag with the target type and returns the typed state on a
match, none otherwise. -/
def anyDowncastMut (self : DynHost) (T : HostTy) : Option T.carrier :=
  if h : self.ty = T then some (h ▸ self.val) else none

/-- HostExt.downcast_mut on dyn HostExt: attempts to downcast the host to a
concrete type via as_any_mut. -/
def DynHost.downcast_mut (self : DynHost) (T : HostTy) : Option T.carrier :=
  anyDowncastMut self.as_any_mut T

/-- EvmContext: the JIT EVM context, an aggregate of the resources borrowed
from one interpreter plus the host, with the resume index. Borrowed fields
are modelled by value with explicit write-back. -/
structure EvmContext where
  memory : List Nat
  contract : Contract
  gas : Gas
  host : DynHost
  next_action : InterpreterAction
  return_data : List Nat
  is_static : Bool
  resume_at : Nat

/-- A nullable raw pointer: null or a pointed-to value. -/
inductive Ptr (α : Type) where
  | null
  | mk (value : α)
deriving DecidableEq, Repr

/-- option_as_mut_ptr: maps an optional mutable reference to a raw pointer,
null when absent. -/
def option_as_mut_ptr {α : Type} (opt : Option α) : Ptr α :=
  match opt with
  | some r => .mk r
  | none => .null

/-- The argument record of RawJitEvmFn, in the fixed positional order of the
extern C signature: gas, stack (nullable), stack length (nullable),
environment, contract, context. -/
structure RawArgs where
  gas : Gas
  stack : Ptr (List EvmWord)
  stack_len : Ptr Nat
  env : Nat
  contract : Contract
  ecx : EvmContext

/-- The final values of every location a compiled function can write through
the pointers it receives: gas, stack contents, stack length, memory,
contract, host (including the environment behind env_mut), the next-action
slot, and the context-local copies of the static flag and resume index. -/
structure RawPost where
  gas : Gas
  stack : List EvmWord
  stack_len : Nat
  memory : List Nat
  contract : Contract
  host : DynHost
  next_action : InterpreterAction
  is_static : Bool
  resume_at : Nat

/-- RawJitEvmFn: the raw function signature of JIT-compiled EVM bytecode,
modelled as a transformer from the argument record to the status code and
the final state of all writable locations. -/
def RawJitEvmFn : Type := RawArgs → InstructionResult × RawPost

/-- JitEvmFn: newtype wrapper around the raw function. -/
structure JitEvmFn where
  raw : RawJitEvmFn

/-- JitEvmFn.new: wraps the function. -/
def JitEvmFn.new (f : RawJitEvmFn) : JitEvmFn := ⟨f⟩

/-- JitEvmFn.into_inner: unwraps the function. -/
def JitEvmFn.into_inner (self : JitEvmFn) : RawJitEvmFn := self.raw

/-- JitEvmFn.call: invokes the raw function with the fixed positional
argument list (gas from the context, the two nullable pointers, the
environment obtained by dereferencing the context host, the contract from
the context, and the context itself) and returns its status code together
with the written-back context, stack contents and stack length. -/
def JitEvmFn.call (self : JitEvmFn) (stack : Option (List EvmWord))
    (stack_len : Option Nat) (ecx : EvmContext) :
    InstructionResult × EvmContext × List EvmWord × Nat :=
  let out := self.raw
    { gas := ecx.gas
    , stack := option_as_mut_ptr stack
    , stack_len := option_as_mut_ptr stack_len
    , env := ecx.host.env_mut
    , contract := ecx.contract
    , ecx := ecx }
  (out.1
  , { memory := out.2.memory
    , contract := out.2.contract
    , gas := out.2.gas
    , host := out.2.host
    , next_action := out.2.next_action
    , return_data := ecx.return_data
    , is_static := out.2.is_static
    , resume_at := out.2.resume_at }
  , out.2.stack, out.2.stack_len)

/-- EvmContext.from_interpreter_with_stack: builds the context from the
borrowed interpreter fields (resume index 0) and extracts the stack view and
length cell from the interpreter stack storage. -/
def EvmContext.from_interpreter_with_stack (debugAssertions : Bool)
    (interpreter : Interpreter) (host : DynHost) :
    Except Unit (EvmContext × List EvmWord × Nat) :=
  match EvmStack.from_interpreter_stack debugAssertions interpreter.stack with
  | .error e => .error e
  | .ok (stackView, stackLen) =>
    .ok
      ({ memory := interpreter.shared_memory
        , contract := interpreter.contract
        , gas := interpreter.gas
        , host := host
        , next_action := interpreter.next_action
        , return_data := interpreter.return_data_buffer
        , is_static := interpreter.is_static
        , resume_at := 0 }
      , stackView.words, stackLen)

/-- EvmContext.from_interpreter: same construction, dropping the stack
view. -/
def EvmContext.from_interpreter (debugAssertions : Bool)
    (interpreter : Interpreter) (host : DynHost) : Except Unit EvmContext :=
  (EvmContext.from_interpreter_with_stack debugAssertions interpreter host).map
    (fun x => x.1)

/-- EvmContext.to_interpreter: creates a new interpreter by cloning the
context, attaching the caller-supplied stack, with instruction result
Continue and the instruction pointer at the start of the contract
bytecode. -/
def EvmContext.to_interpreter (self : EvmContext) (stack : Stack) : Interpreter :=
  { instruction_pointer := self.contract.bytecode
  , contract := self.contract
  , instruction_result := .Continue
  , gas := self.gas
  , shared_memory := self.memory
  , stack := stack
  , return_data_buffer := self.return_data
  , is_static := self.is_static
  , next_action := self.next_action }

/-- JitEvmFn.call_with_interpreter: builds a context from the interpreter,
invokes the low-level call with the stack view and length cell, stores the
status code into the instruction result field, then either takes the
populated next action (resetting the slot to None) or synthesizes a Return
action from the status, an empty output and the current gas. -/
def JitEvmFn.call_with_interpreter (debugAssertions : Bool) (self : JitEvmFn)
    (interpreter : Interpreter) (host : DynHost) :
    Except Unit (Interpreter × DynHost × InterpreterAction) :=
  match EvmContext.from_interpreter_with_stack debugAssertions interpreter host with
  | .error e => .error e
  | .ok (ecx, stackView, stackLen) =>
    let out := self.call (some stackView) (some stackLen) ecx
    let i1 : Interpreter :=
      { interpreter with
          instruction_result := out.1
        , shared_memory := out.2.1.memory
        , contract := out.2.1.contract
        , gas := out.2.1.gas
        , next_action := out.2.1.next_action
        , stack :=
            { buf := out.2.2.1 ++ interpreter.stack.buf.drop EvmStack.CAPACITY
            , len := out.2.2.2 } }
    if i1.next_action.is_some then
      .ok ({ i1 with next_action := .None }, out.2.1.host, i1.next_action)
    else
      .ok (i1, out.2.1.host
          , .Return { result := i1.instruction_result, output := [], gas := i1.gas })

/-- Written from the spec words for comparison with the code: the calling
convention passes a pointer to the stack or null when the stack option is
absent (and likewise for the stack-length cell). -/
def specOptionToPtr {α : Type} : Option α → Ptr α
  | some r => .mk r
  | none => .null

theorem specOptionToPtr_eq {α : Type} (o : Option α) :
    specOptionToPtr o = option_as_mut_ptr o := by
  cases o <;> rfl

theorem is_some_eq_false (a : InterpreterAction) :
    a.is_some = false ↔ a = .None := by
  cases a <;> simp [InterpreterAction.is_some]

/-- C1: the status code returned by the underlying call is stored into the
instruction result field; the next-action slot always ends empty; if the
slot was populated (non-empty) after the call, that action is returned,
otherwise a terminal Return action is returned carrying exactly the
resulting status code, an empty output, and the current gas state; and in
every case the returned action is well-formed (non-empty). -/
theorem claim1 (debug : Bool) (f : JitEvmFn) (i : Interpreter) (host : DynHost)
    (ecx : EvmContext) (sv : List EvmWord) (ln : Nat)
    (r : InstructionResult) (ecxOut : EvmContext) (stOut : List EvmWord) (lnOut : Nat)
    (iOut : Interpreter) (hostOut : DynHost) (act : InterpreterAction)
    (h1 : EvmContext.from_interpreter_with_stack debug i host = .ok (ecx, sv, ln))
    (h2 : f.call (some sv) (some ln) ecx = (r, ecxOut, stOut, lnOut))
    (h3 : f.call_with_interpreter debug i host = .ok (iOut, hostOut, act)) :
    iOut.instruction_result = r ∧
    iOut.next_action = .None ∧
    act.is_some = true ∧
    (ecxOut.next_action.is_some = true → act = ecxOut.next_action) ∧
    (ecxOut.next_action.is_some = false →
      act = .Return { result := r, output := [], gas := ecxOut.gas }) := by
  unfold JitEvmFn.call_with_interpreter at h3
  split at h3
  · exact Except.noConfusion h3
  · rename_i ecx2 sv2 ln2 heq
    rw [h1] at heq
    simp only [Except.ok.injEq, Prod.mk.injEq] at heq
    obtain ⟨he1, he2, he3⟩ := heq
    subst he1
    subst he2
    subst he3
    rw [h2] at h3
    dsimp only at h3
    cases hna : ecxOut.next_action.is_some with
    | false =>
      have hnone : ecxOut.next_action = .None := (is_some_eq_false _).mp hna
      rw [hnone] at h3
      simp only [InterpreterAction.is_some, Bool.false_eq_true, if_false,
        Except.ok.injEq, Prod.mk.injEq, reduceCtorEq, reduceIte] at h3
      obtain ⟨hi, hh, ha⟩ := h3
      subst hi
      subst hh
      subst ha
      exact ⟨rfl, rfl, rfl, fun hf => Bool.noConfusion hf, fun _ => rfl⟩
    | true =>
      simp only [hna, if_true, Except.ok.injEq, Prod.mk.injEq, reduceIte] at h3
      obtain ⟨hi, hh, ha⟩ := h3
      subst hi
      subst hh
      subst ha
      exact ⟨rfl, rfl, hna, fun _ => rfl, fun hf => Bool.noConfusion hf⟩

/-- C2: the low-level call invokes the wrapped raw function with exactly the
fixed positional argument record (gas from the context, the stack pointer or
null when the stack option is absent, the stack-length pointer or null when
that option is absent, the environment obtained by dereferencing the context
host capability, the contract from the context, and the context itself), and
the raw function produced exactly the returned status code and the state the
call wrote back. -/
theorem claim2 (f : JitEvmFn) (stackOpt : Option (List EvmWord))
    (lenOpt : Option Nat) (ecx : EvmContext) (r : InstructionResult)
    (ecxOut : EvmContext) (stOut : List EvmWord) (lnOut : Nat)
    (h : f.call stackOpt lenOpt ecx = (r, ecxOut, stOut, lnOut)) :
    f.raw
      { gas := ecx.gas
      , stack := specOptionToPtr stackOpt
      , stack_len := specOptionToPtr lenOpt
      , env := ecx.host.env_mut
      , contract := ecx.contract
      , ecx := ecx } =
    (r
    , { gas := ecxOut.gas
      , stack := stOut
      , stack_len := lnOut
      , memory := ecxOut.memory
      , contract := ecxOut.contract
      , host := ecxOut.host
      , next_action := ecxOut.next_action
      , is_static := ecxOut.is_static
      , resume_at := ecxOut.resume_at }) := by
  rw [specOptionToPtr_eq, specOptionToPtr_eq]
  simp only [JitEvmFn.call, Prod.mk.injEq] at h
  obtain ⟨hr, he, hs, hn⟩ := h
  subst hr
  subst hs
  subst hn
  subst he
  rfl

/-- Concrete host trait object of concrete type A with state 5. -/
def host0 : DynHost := ⟨.A, (5 : Nat), 3⟩

/-- Concrete gas meter before the call. -/
def gas0 : Gas := ⟨1000, 900, 0⟩

/-- Concrete gas meter after the stub call. -/
def gas1 : Gas := ⟨1000, 800, 1⟩

/-- Concrete contract. -/
def contract0 : Contract := ⟨[96, 1], 7⟩

/-- Concrete interpreter with a full-capacity stack buffer. -/
def interp0 : Interpreter :=
  { instruction_pointer := [96, 1]
  , contract := contract0
  , instruction_result := .Continue
  , gas := gas0
  , shared_memory := [1, 2]
  , stack := { buf := List.replicate EvmStack.CAPACITY EvmWord.ZERO, len := 0 }
  , return_data_buffer := [9]
  , is_static := false
  , next_action := .None }

/-- The context built from interp0 and host0. -/
def ecx0 : EvmContext :=
  { memory := [1, 2]
  , contract := contract0
  , gas := gas0
  , host := host0
  , next_action := .None
  , return_data := [9]
  , is_static := false
  , resume_at := 0 }

/-- The stack view extracted from interp0. -/
def view0 : List EvmWord :=
  List.take EvmStack.CAPACITY (List.replicate EvmStack.CAPACITY EvmWord.ZERO)

/-- Post-state of the concrete stub compiled function. -/
def post0 : RawPost :=
  { gas := gas1
  , stack := []
  , stack_len := 2
  , memory := [5]
  , contract := contract0
  , host := host0
  , next_action := .None
  , is_static := false
  , resume_at := 1 }

/-- A stub compiled function: returns the Stop status, sets no next action,
and writes post0 through its pointers. -/
def rawStub0 : RawJitEvmFn := fun _ => (.Stop, post0)

/-- The wrapped stub. -/
def fn0 : JitEvmFn := ⟨rawStub0⟩

/-- The context written back after calling the stub. -/
def ecxOut0 : EvmContext :=
  { memory := [5]
  , contract := contract0
  , gas := gas1
  , host := host0
  , next_action := .None
  , return_data := [9]
  , is_static := false
  , resume_at := 1 }

/-- The interpreter written back after the convenience call of the stub. -/
def interpOut0 : Interpreter :=
  { instruction_pointer := [96, 1]
  , contract := contract0
  , instruction_result := .Stop
  , gas := gas1
  , shared_memory := [5]
  , stack := { buf := [], len := 2 }
  , return_data_buffer := [9]
  , is_static := false
  , next_action := .None }

/-- The synthesized terminal action for the stub that set no action. -/
def act0 : InterpreterAction := .Return { result := .Stop, output := [], gas := gas1 }

set_option maxRecDepth 8192 in
/-- Witness for C1 at the stub that sets no next action: the Stop status is
stored, the slot stays empty, and the synthesized terminal Return action
carries the status, empty output and the current gas. -/
theorem claim1_witness :
    interpOut0.instruction_result = .Stop ∧
    interpOut0.next_action = .None ∧
    act0.is_some = true ∧
    (ecxOut0.next_action.is_some = true → act0 = ecxOut0.next_action) ∧
    (ecxOut0.next_action.is_some = false →
      act0 = .Return { result := .Stop, output := [], gas := ecxOut0.gas }) :=
  claim1 false fn0 interp0 host0 ecx0 view0 0 .Stop ecxOut0 [] 2 interpOut0 host0 act0
    rfl rfl rfl

/-- Witness for C2 at the stub with an absent stack option and a present
stack-length option: the raw function is reached with a null stack pointer,
the given length cell, and the environment from the host. -/
theorem claim2_witness :
    fn0.raw
      { gas := ecx0.gas
      , stack := specOptionToPtr none
      , stack_len := specOptionToPtr (some 4)
      , env := ecx0.host.env_mut
      , contract := ecx0.contract
      , ecx := ecx0 } =
    (.Stop
    , { gas := ecxOut0.gas
      , stack := []
      , stack_len := 2
      , memory := ecxOut0.memory
      , contract := ecxOut0.contract
      , host := ecxOut0.host
      , next_action := ecxOut0.next_action
      , is_static := ecxOut0.is_static
      , resume_at := ecxOut0.resume_at }) :=
  claim2 fn0 none (some 4) ecx0 .Stop ecxOut0 [] 2 rfl

/-- C3 counterexample: with debug assertions disabled (the optimized build),
reinterpreting an interpreter stack whose backing capacity is 0 words does
not fail loudly: the construction succeeds, refuting the claim that every
safe construction entry point over insufficient external storage fails with
an assertion. -/
theorem claim3_counterexample :
    isOkB (EvmStack.from_interpreter_stack false { buf := [], len := 0 }) = true := rfl

/-- C3 amended: the slice and vector constructors always assert the capacity
invariant, failing exactly on capacity below 1024 and exposing exactly 1024
slots on success; the interpreter-stack constructor checks the invariant
only when debug assertions are enabled and otherwise trusts the caller (as
the raw-pointer constructors do), still exposing exactly 1024 slots whenever
the capacity is sufficient. -/
theorem claim3_amended (s : List EvmWord) (debug : Bool) (st : Stack) :
    (isOkB (EvmStack.from_slice s) = decide (EvmStack.CAPACITY ≤ s.length)) ∧
    (isOkB (EvmStack.from_mut_slice s) = decide (EvmStack.CAPACITY ≤ s.length)) ∧
    (isOkB (EvmStack.from_vec s) = decide (EvmStack.CAPACITY ≤ s.length)) ∧
    (isOkB (EvmStack.from_mut_vec s) = decide (EvmStack.CAPACITY ≤ s.length)) ∧
    (isOkB (EvmStack.from_interpreter_stack debug st) =
      (!debug || decide (EvmStack.CAPACITY ≤ st.buf.length))) ∧
    (∀ v, EvmStack.from_slice s = .ok v → v.words.length = EvmStack.CAPACITY) ∧
    (∀ v, EvmStack.from_mut_slice s = .ok v → v.words.length = EvmStack.CAPACITY) ∧
    (∀ v, EvmStack.from_vec s = .ok v → v.words.length = EvmStack.CAPACITY) ∧
    (∀ v, EvmStack.from_mut_vec s = .ok v → v.words.length = EvmStack.CAPACITY) ∧
    (∀ v ln, EvmStack.from_interpreter_stack debug st = .ok (v, ln) →
      EvmStack.CAPACITY ≤ st.buf.length → v.words.length = EvmStack.CAPACITY) := by
  have hlen : ∀ b : List EvmWord, EvmStack.CAPACITY ≤ b.length →
      (EvmStack.from_ptr b).words.length = EvmStack.CAPACITY := by
    intro b hb
    simp [EvmStack.from_ptr, List.length_take, Nat.min_eq_left hb]
  refine ⟨?_, ?_, ?_, ?_, ?_, ?_, ?_, ?_, ?_, ?_⟩
  · by_cases h : EvmStack.CAPACITY ≤ s.length <;>
      simp [EvmStack.from_slice, isOkB, h]
  · by_cases h : EvmStack.CAPACITY ≤ s.length <;>
      simp [EvmStack.from_mut_slice, isOkB, h]
  · by_cases h : EvmStack.CAPACITY ≤ s.length <;>
      simp [EvmStack.from_vec, isOkB, h]
  · by_cases h : EvmStack.CAPACITY ≤ s.length <;>
      simp [EvmStack.from_mut_vec, isOkB, h]
  · cases debug with
    | false => simp [EvmStack.from_interpreter_stack, isOkB]
    | true =>
      by_cases h : st.buf.length < EvmStack.CAPACITY
      · simp [EvmStack.from_interpreter_stack, isOkB, h, Nat.not_le.mpr h]
      · simp [EvmStack.from_interpreter_stack, isOkB, h, Nat.not_lt.mp h]
  · intro v hv
    by_cases h : EvmStack.CAPACITY ≤ s.length
    · simp only [EvmStack.from_slice, if_pos h, Except.ok.injEq] at hv
      rw [← hv]
      exact hlen s h
    · simp [EvmStack.from_slice, if_neg h] at hv
  · intro v hv
    by_cases h : EvmStack.CAPACITY ≤ s.length
    · simp only [EvmStack.from_mut_slice, if_pos h, Except.ok.injEq] at hv
      rw [← hv]
      exact hlen s h
    · simp [EvmStack.from_mut_slice, if_neg h] at hv
  · intro v hv
    by_cases h : EvmStack.CAPACITY ≤ s.length
    · simp only [EvmStack.from_vec, if_pos h, Except.ok.injEq] at hv
      rw [← hv]
      exact hlen s h
    · simp [EvmStack.from_vec, if_neg h] at hv
  · intro v hv
    by_cases h : EvmStack.CAPACITY ≤ s.length
    · simp only [EvmStack.from_mut_vec, if_pos h, Except.ok.injEq] at hv
      rw [← hv]
      exact hlen s h
    · simp [EvmStack.from_mut_vec, if_neg h] at hv
  · intro v ln hv hcap
    by_cases h : debug ∧ st.buf.length < EvmStack.CAPACITY
    · simp [EvmStack.from_interpreter_stack, if_pos h] at hv
    · simp only [EvmStack.from_interpreter_stack, if_neg h, Except.ok.injEq,
        Prod.mk.injEq] at hv
      rw [← hv.1]
      exact hlen st.buf hcap

/-- The all-zero word repeated over the full stack capacity. -/
def buf0 : List EvmWord := List.replicate EvmStack.CAPACITY EvmWord.ZERO

/-- A concrete interpreter stack with a full-capacity backing buffer. -/
def stack0 : Stack := { buf := buf0, len := 0 }

set_option maxRecDepth 8192 in
/-- Witness for the amended C3 at a 1024-word buffer with debug assertions
enabled. -/
theorem claim3_witness :
    isOkB (EvmStack.from_slice buf0) = true ∧
    (EvmStack.from_ptr buf0).words.length = EvmStack.CAPACITY ∧
    isOkB (EvmStack.from_interpreter_stack true stack0) = true := by
  have h := claim3_amended buf0 true stack0
  refine ⟨h.1.trans (by decide), ?_, ?_⟩
  · exact h.2.2.2.2.2.1 (EvmStack.from_ptr buf0) rfl
  · exact h.2.2.2.2.1.trans (by decide)

/-- C4: for every target endianness and every unsigned width W in
{8,16,32,64,128}, narrowing a well-formed word fails with the payload-free
error exactly when its 256-bit value exceeds 2 ^ W - 1, and otherwise
succeeds with the value itself, and lifting that value back yields the same
word exactly. -/
theorem claim4 (e : Endian) (W : Nat)
    (_hW : W = 8 ∨ W = 16 ∨ W = 32 ∨ W = 64 ∨ W = 128)
    (w : EvmWord) (hwf : w.wf) :
    (EvmWord.try_into_uint e W w = none ↔ 2 ^ W ≤ EvmWord.to_u256 e w) ∧
    (∀ v, EvmWord.try_into_uint e W w = some v →
      v = EvmWord.to_u256 e w ∧ EvmWord.from_uint e v = w) := by
  refine ⟨?_, ?_⟩
  · by_cases h : EvmWord.to_u256 e w < 2 ^ W
    · simp only [EvmWord.try_into_uint, uintTryFromU256, if_pos h]
      simp [Nat.not_le.mpr h]
    · simp only [EvmWord.try_into_uint, uintTryFromU256, if_neg h]
      simp [Nat.not_lt.mp h]
  · intro v hv
    by_cases h : EvmWord.to_u256 e w < 2 ^ W
    · simp only [EvmWord.try_into_uint, uintTryFromU256, if_pos h,
        Option.some.injEq] at hv
      refine ⟨hv.symm, ?_⟩
      rw [← hv]
      exact from_u256_to_u256 e w hwf
    · simp [EvmWord.try_into_uint, uintTryFromU256, if_neg h] at hv

/-- Concrete word with value 5 in little-endian byte order. -/
def w5 : EvmWord := ⟨5 :: List.replicate 31 0⟩

/-- Witness for C4 at the little-endian target, width 64 and the word with
value 5. -/
theorem claim4_witness :
    (EvmWord.try_into_uint .little 64 w5 = none ↔
      2 ^ 64 ≤ EvmWord.to_u256 .little w5) ∧
    (∀ v, EvmWord.try_into_uint .little 64 w5 = some v →
      v = EvmWord.to_u256 .little w5 ∧ EvmWord.from_uint .little v = w5) :=
  claim4 .little 64 (Or.inr (Or.inr (Or.inr (Or.inl rfl)))) w5 (by decide)

/-- C5: byte-order conversions round-trip losslessly for every word on both
targets, each big- or little-endian conversion is the identity or the full
byte reversal according to the native order, and native-order conversions
are always the identity. -/
theorem claim5 (e : Endian) (w : EvmWord) (b : List Nat) :
    EvmWord.from_be_bytes e (EvmWord.to_be_bytes e w) = w ∧
    EvmWord.from_le_bytes e (EvmWord.to_le_bytes e w) = w ∧
    EvmWord.from_ne_bytes (EvmWord.to_ne_bytes w) = w ∧
    EvmWord.from_be .little w = w.swap_bytes ∧
    EvmWord.from_be .big w = w ∧
    EvmWord.from_le .little w = w ∧
    EvmWord.from_le .big w = w.swap_bytes ∧
    EvmWord.to_be .little w = w.swap_bytes ∧
    EvmWord.to_be .big w = w ∧
    EvmWord.to_le .little w = w ∧
    EvmWord.to_le .big w = w.swap_bytes ∧
    EvmWord.to_ne_bytes (EvmWord.from_ne_bytes b) = b := by
  cases e <;>
    simp [EvmWord.from_be_bytes, EvmWord.from_le_bytes, EvmWord.from_ne_bytes,
      EvmWord.to_be_bytes, EvmWord.to_le_bytes, EvmWord.to_ne_bytes,
      EvmWord.from_be, EvmWord.from_le, EvmWord.to_be, EvmWord.to_le,
      EvmWord.swap_bytes, EvmWord.mk_bytes]

/-- C6: converting any value of the native 256-bit integer type to a word
and back with to_u256 or into_u256 yields the value again, on both the
little-endian target and, via the explicit big-endian byte path, the
big-endian target. -/
theorem claim6 (e : Endian) (v : Nat) (h : v < 2 ^ 256) :
    EvmWord.to_u256 e (EvmWord.from_u256 e v) = v ∧
    EvmWord.into_u256 e (EvmWord.from_u256 e v) = v := by
  have h1 := to_u256_from_u256 e v h
  refine ⟨h1, ?_⟩
  cases e <;> simpa [EvmWord.to_u256, EvmWord.into_u256] using h1

/-- Witness for C6 at value 12345 on the big-endian byte path. -/
theorem claim6_witness :
    EvmWord.to_u256 .big (EvmWord.from_u256 .big 12345) = 12345 ∧
    EvmWord.into_u256 .big (EvmWord.from_u256 .big 12345) = 12345 :=
  claim6 .big 12345 (by norm_num)

/-- C7: to_address is the trailing 20 bytes of the big-endian byte form, and
a word built from a 32-byte big-endian buffer whose trailing 20 bytes are p
yields the address p for every choice of the 12 leading bytes. -/
theorem claim7 (e : Endian) (w : EvmWord) (lead p : List Nat)
    (hl : lead.length = 12) (_hp : p.length = 20) :
    EvmWord.to_address e w = (EvmWord.to_be_bytes e w).drop 12 ∧
    EvmWord.to_address e (EvmWord.from_be_bytes e (lead ++ p)) = p := by
  refine ⟨rfl, ?_⟩
  show addressFromWord (EvmWord.to_be_bytes e (EvmWord.from_be_bytes e (lead ++ p))) = p
  rw [to_be_bytes_from_be_bytes]
  unfold addressFromWord
  rw [← hl]
  exact List.drop_left lead p

/-- Concrete 12-byte leading pattern. -/
def lead12 : List Nat := List.replicate 12 170

/-- Concrete 20-byte address pattern. -/
def p20 : List Nat := List.replicate 20 187

/-- Witness for C7 at the little-endian target with concrete leading and
trailing patterns. -/
theorem claim7_witness :
    EvmWord.to_address .little EvmWord.ZERO =
      (EvmWord.to_be_bytes .little EvmWord.ZERO).drop 12 ∧
    EvmWord.to_address .little (EvmWord.from_be_bytes .little (lead12 ++ p20)) = p20 :=
  claim7 .little EvmWord.ZERO lead12 p20 (by decide) (by decide)

/-- C8: snapshot reconstruction copies contract, gas, memory, return data,
static flag and next action from the context and attaches the caller
supplied stack. -/
theorem claim8 (ctx : EvmContext) (st : Stack) :
    (ctx.to_interpreter st).contract = ctx.contract ∧
    (ctx.to_interpreter st).gas = ctx.gas ∧
    (ctx.to_interpreter st).shared_memory = ctx.memory ∧
    (ctx.to_interpreter st).return_data_buffer = ctx.return_data ∧
    (ctx.to_interpreter st).is_static = ctx.is_static ∧
    (ctx.to_interpreter st).next_action = ctx.next_action ∧
    (ctx.to_interpreter st).stack = st :=
  ⟨rfl, rfl, rfl, rfl, rfl, rfl, rfl⟩

/-- C9: runtime type recovery on a host trait object returns the typed state
when the concrete type matches the target and none otherwise; it is a total
function, so a mismatch is a recoverable outcome, never a panic. -/
theorem claim9 (h : DynHost) (T : HostTy) :
    (∀ e : h.ty = T, h.downcast_mut T = some (e ▸ h.val)) ∧
    (h.ty ≠ T → h.downcast_mut T = none) := by
  constructor
  · intro e
    unfold DynHost.downcast_mut anyDowncastMut DynHost.as_any_mut
    rw [dif_pos e]
  · intro ne
    unfold DynHost.downcast_mut anyDowncastMut DynHost.as_any_mut
    rw [dif_neg ne]

/-- Witness for C9: recovery at the matching type yields the state, at a
mismatching type yields none. -/
theorem claim9_witness :
    host0.downcast_mut .A = some (5 : Nat) ∧ host0.downcast_mut .B = none :=
  ⟨(claim9 host0 .A).1 rfl, (claim9 host0 .B).2 (by decide)⟩

/-- C10: the reconstructed interpreter starts with instruction result
Continue and its instruction pointer at the start of the contract
bytecode. -/
theorem claim10 (ctx : EvmContext) (st : Stack) :
    (ctx.to_interpreter st).instruction_result = InstructionResult.Continue ∧
    (ctx.to_interpreter st).instruction_pointer = ctx.contract.bytecode :=
  ⟨rfl, rfl⟩

end RevmcCtx
